import Mathlib

/-!
Shallow embedding of tap_sentry/sync.py (RisePeopleInc/tap-sentry).

The remote network is modelled as an explicit input: each client fetch
receives the finite chain of pages the server would return for that
request (or a request error).  Timestamps are modelled as integers,
rendered to strings by strftime and parsed back by parseDate, mirroring
singer.utils.strftime and dateutil.parser.parse.  Record emission and
state emission are modelled as an explicit trace of Emitted events.
-/

set_option autoImplicit false

/-- Errors a client call can raise: a non-2xx request failure after the
retries are exhausted, a TypeError such as dateutil.parser.parse(None),
a date-parse failure, or a malformed response body. -/
inductive Err where
  | requestError
  | typeError
  | parseError
  | malformedResponse
deriving DecidableEq, Repr

/-- The next link relation of a response (response.links next entry):
a url and the results flag the Sentry API sets to true or false. -/
structure Link where
  url : String
  results : String
deriving DecidableEq, Repr

/-- One paginated response: the list of records in its JSON body plus the
optional next link relation (none when response.links is empty). -/
structure Page (α : Type) where
  records : List α
  links : Option Link
deriving DecidableEq, Repr

/-- The while-loop guard shared by the issues, events and teams fetches:
response.links is non-empty and links next results equals the string true. -/
def continuePagination {α : Type} (p : Page α) : Bool :=
  match p.links with
  | none => false
  | some l => l.results == "true"

/-- The pagination loop of SentryClient.issues, SentryClient.events and
SentryClient.teams over the chain of pages the server returns: the first
page is already fetched; while the guard holds the next page is fetched
and its records appended.  Returns the accumulated records and the number
of pages fetched. -/
def paginate {α : Type} : List (Page α) → List α × Nat
  | [] => ([], 0)
  | p :: rest =>
    if continuePagination p then
      (p.records ++ (paginate rest).1, (paginate rest).2 + 1)
    else
      (p.records, 1)

/-- A finite chain of paginated responses as a server would produce it:
non-empty, every page before the last one continues the traversal, and the
last page stops it (no next relation, or a results flag other than true). -/
def wellFormedChain {α : Type} : List (Page α) → Bool
  | [] => false
  | [p] => !continuePagination p
  | p :: q :: rest => continuePagination p && wellFormedChain (q :: rest)

/-- Singer state: the bookmarks mapping, flattened to entries
(stream, field, value) as in state bookmarks stream field. -/
abbrev SingerState := List (String × String × String)

/-- Models singer.bookmarks.get_bookmark with default None: look up the
value stored for (stream, field), if any. -/
def get_bookmark (state : SingerState) (stream field : String) : Option String :=
  (state.find? (fun e => e.1 == stream && e.2.1 == field)).map (fun e => e.2.2)

/-- Models singer.bookmarks.write_bookmark: return the state with the
value for (stream, field) replaced. -/
def write_bookmark (state : SingerState) (stream field value : String) : SingerState :=
  (stream, field, value) :: state.filter (fun e => !(e.1 == stream && e.2.1 == field))

/-- Models singer.utils.strftime on the integer timestamp model. -/
def strftime (t : Int) : String := toString t

/-- Decimal digit value of a character, if any. -/
def digitChar (c : Char) : Option Nat :=
  if 48 ≤ c.toNat && c.toNat ≤ 57 then some (c.toNat - 48) else none

/-- Parse a run of decimal digits, failing on any other character. -/
def parseNatChars : List Char → Nat → Option Nat
  | [], acc => some acc
  | c :: cs, acc =>
    match digitChar c with
    | none => none
    | some d => parseNatChars cs (acc * 10 + d)

/-- Models dateutil.parser.parse on the integer timestamp model: the
stored bookmark string is read back as an integer instant; a malformed
string fails (a ParserError in the source). -/
def parseDate (s : String) : Option Int :=
  match s.data with
  | [] => none
  | '-' :: cs =>
    match cs with
    | [] => none
    | _ => (parseNatChars cs 0).map (fun n => -(n : Int))
  | cs => (parseNatChars cs 0).map (fun n => (n : Int))

/-- An issue record as the code reads it: only its id field is consulted. -/
structure Issue where
  id : String
deriving DecidableEq, Repr

/-- An activity record: its dateCreated timestamp and the optional nested
issue reference. -/
structure Activity where
  dateCreated : Int
  issue : Option Issue
deriving DecidableEq, Repr

/-- A project record: the code reads its id and its slug. -/
structure Project where
  id : String
  slug : String
deriving DecidableEq, Repr

/-- An event record, identified by its eventID primary key. -/
structure Event where
  eventID : String
deriving DecidableEq, Repr

/-- A team record. -/
structure Team where
  id : String
deriving DecidableEq, Repr

/-- A user record. -/
structure User where
  id : String
deriving DecidableEq, Repr

/-- SentryClient.issues: reads the issues start bookmark (it only shapes
the query string, here the second argument of the network model), issues
the initial GET (an Except error models raise_for_status), then runs the
pagination loop over the returned chain. -/
def SentryClient.issues (net : String → Option String → Except Err (List (Page Issue)))
    (project_id : String) (state : SingerState) : Except Err (List Issue) :=
  (net project_id (get_bookmark state "issues" "start")).map (fun chain => (paginate chain).1)

/-- SentryClient._filter_activities: keep the activities whose dateCreated
is at or after the bookmark. -/
def SentryClient.filter_activities (activities : List Activity) (bookmark : Int) : List Activity :=
  activities.filter (fun a => decide (bookmark ≤ a.dateCreated))

/-- The while loop of SentryClient.activity: while the current response
continues the traversal, fetch the next page, filter it by the bookmark,
and stop at the first page whose filtered list is empty. -/
def activityLoop (bookmark : Int) : Page Activity → List (Page Activity) → List Activity
  | _, [] => []
  | cur, p :: rest =>
    if continuePagination cur then
      let new_activities := SentryClient.filter_activities p.records bookmark
      if new_activities.isEmpty then [] else new_activities ++ activityLoop bookmark p rest
    else []

/-- SentryClient.activity: parse the activity start bookmark (parsing None
raises a TypeError, an unparseable string a parse error), fetch the first
page, filter it, return immediately when the filtered first page is empty,
else run the loop over the remaining chain. -/
def SentryClient.activity (net : Except Err (List (Page Activity)))
    (state : SingerState) : Except Err (List Activity) :=
  match get_bookmark state "activity" "start" with
  | none => .error .typeError
  | some s =>
    match parseDate s with
    | none => .error .parseError
    | some bookmark =>
      match net with
      | .error e => .error e
      | .ok [] => .error .requestError
      | .ok (first :: rest) =>
        let activities := SentryClient.filter_activities first.records bookmark
        if activities.isEmpty then .ok activities
        else .ok (activities ++ activityLoop bookmark first rest)

/-- SentryClient.events: the whole body sits in a try/except returning
None, so a request error (or any other failure) yields none; otherwise the
pagination loop accumulates the chain. -/
def SentryClient.events (net : String → Option String → Except Err (List (Page Event)))
    (project_id : String) (state : SingerState) : Option (List Event) :=
  match net project_id (get_bookmark state "events" "start") with
  | .error _ => none
  | .ok chain => some (paginate chain).1

/-- SentryClient.teams: initial GET then the pagination loop.  The state
argument is accepted but unused, as in the source. -/
def SentryClient.teams (net : Except Err (List (Page Team)))
    (_state : SingerState) : Except Err (List Team) :=
  net.map (fun chain => (paginate chain).1)

/-- SentryClient.users: a single GET, no pagination.  The state argument
is accepted but unused, as in the source. -/
def SentryClient.users (net : Except Err (List User))
    (_state : SingerState) : Except Err (List User) :=
  net

/-- One observable output of a sync pass: a schema emission, a record
emission, or a bookmark write (which also emits the new state). -/
inductive Emitted (α : Type) where
  | schema (stream : String) (keys : List String)
  | record (stream : String) (payload : α)
  | bookmarkWrite (stream : String) (field : String) (value : String)
deriving DecidableEq, Repr

/-- The per-project loop of SentrySync.sync_issues: for each project fetch
its issues with the client (a raised error aborts the loop, keeping the
records already written); for each issue append its id to issues_synced
and write the record.  Returns (issues_synced, trace, raised error). -/
def projectPhase (issuesNet : String → Option String → Except Err (List (Page Issue)))
    (state : SingerState) : List Project → List String × List (Emitted Issue) × Option Err
  | [] => ([], [], none)
  | p :: ps =>
    match SentryClient.issues issuesNet p.slug state with
    | .error e => ([], [], some e)
    | .ok issues =>
      let r := projectPhase issuesNet state ps
      (issues.map Issue.id ++ r.1, issues.map (Emitted.record "issues") ++ r.2.1, r.2.2)

/-- The activity loop of SentrySync.sync_issues: for each activity whose
issue field is set, emit the nested issue unless its id is already in
issues_synced, appending the id when emitting. -/
def activityPhase : List Activity → List String → List (Emitted Issue) × List String
  | [], synced => ([], synced)
  | a :: rest, synced =>
    match a.issue with
    | none => activityPhase rest synced
    | some issue =>
      if synced.contains issue.id then activityPhase rest synced
      else
        let r := activityPhase rest (synced ++ [issue.id])
        (Emitted.record "issues" issue :: r.1, r.2)

/-- SentrySync.sync_issues: write the schema, capture extraction_time, run
the per-project issues loop (an error propagates, leaving the state
untouched), write the issues start bookmark, fetch the organization
activity (an error propagates, the issues bookmark already written),
emit the not-yet-synced nested issues, and write the activity start
bookmark.  Returns the trace, the final state, and the raised error. -/
def SentrySync.sync_issues (projects : List Project)
    (issuesNet : String → Option String → Except Err (List (Page Issue)))
    (activityNet : Except Err (List (Page Activity)))
    (extraction_time : Int) (state0 : SingerState) :
    List (Emitted Issue) × SingerState × Option Err :=
  let v := strftime extraction_time
  match projectPhase issuesNet state0 projects with
  | (_, tr, some e) => (Emitted.schema "issues" ["id"] :: tr, state0, some e)
  | (synced, tr, none) =>
    let state1 := write_bookmark state0 "issues" "start" v
    match SentryClient.activity activityNet state1 with
    | .error e =>
      (Emitted.schema "issues" ["id"] :: tr ++ [Emitted.bookmarkWrite "issues" "start" v],
       state1, some e)
    | .ok activities =>
      let issue_activities := activities.filter (fun a => a.issue.isSome)
      let tr2 := (activityPhase issue_activities synced).1
      (Emitted.schema "issues" ["id"] :: tr ++ Emitted.bookmarkWrite "issues" "start" v ::
         tr2 ++ [Emitted.bookmarkWrite "activity" "start" v],
       write_bookmark state1 "activity" "start" v, none)

/-- SentrySync.sync_projects: write the schema and emit every cached
project record.  No bookmark. -/
def SentrySync.sync_projects (projects : List Project) :
    List (Emitted Project) × Option Err :=
  (Emitted.schema "projects" ["id"] :: projects.map (Emitted.record "projects"), none)

/-- The per-project loop of SentrySync.sync_events: a client result of
none (any swallowed failure) contributes nothing and the loop continues
with the remaining projects. -/
def eventsProjectPhase (eventsNet : String → Option String → Except Err (List (Page Event)))
    (state : SingerState) : List Project → List (Emitted Event)
  | [] => []
  | p :: ps =>
    (match SentryClient.events eventsNet p.id state with
     | none => []
     | some evs => evs.map (Emitted.record "events")) ++ eventsProjectPhase eventsNet state ps

/-- SentrySync.sync_events: write the schema, capture extraction_time,
and when the cached project list is non-empty run the per-project loop
and then write the events start bookmark. -/
def SentrySync.sync_events (projects : List Project)
    (eventsNet : String → Option String → Except Err (List (Page Event)))
    (extraction_time : Int) (state0 : SingerState) :
    List (Emitted Event) × SingerState :=
  if projects.isEmpty then ([Emitted.schema "events" ["eventID"]], state0)
  else
    let v := strftime extraction_time
    (Emitted.schema "events" ["eventID"] :: eventsProjectPhase eventsNet state0 projects ++
       [Emitted.bookmarkWrite "events" "start" v],
     write_bookmark state0 "events" "start" v)

/-- SentrySync.sync_users: write the schema and emit every fetched user.
A fetch error propagates; no bookmark is ever written. -/
def SentrySync.sync_users (net : Except Err (List User)) (state0 : SingerState) :
    List (Emitted User) × SingerState × Option Err :=
  match SentryClient.users net state0 with
  | .error e => ([Emitted.schema "users" ["id"]], state0, some e)
  | .ok users => (Emitted.schema "users" ["id"] :: users.map (Emitted.record "users"), state0, none)

/-- SentrySync.sync_teams: write the schema and emit every fetched team.
A fetch error propagates; no bookmark is ever written. -/
def SentrySync.sync_teams (net : Except Err (List (Page Team))) (state0 : SingerState) :
    List (Emitted Team) × SingerState × Option Err :=
  match SentryClient.teams net state0 with
  | .error e => ([Emitted.schema "teams" ["id"]], state0, some e)
  | .ok teams => (Emitted.schema "teams" ["id"] :: teams.map (Emitted.record "teams"), state0, none)

/-- The Retry configuration mounted on the session: Retry(total=5,
backoff_factor=0.1, status_forcelist=[429, 500, 502, 503, 504],
respect_retry_after_header=True). -/
structure RetryConfig where
  total : Nat
  backoff_factor : Rat
  status_forcelist : List Nat
  respect_retry_after_header : Bool
deriving DecidableEq

/-- The concrete configuration built in SentryClient.session. -/
def sessionRetryConfig : RetryConfig :=
  ⟨5, 1 / 10, [429, 500, 502, 503, 504], true⟩

/-- A status code triggers a retry exactly when it is in the forcelist. -/
def isRetryStatus (cfg : RetryConfig) (status : Nat) : Bool :=
  cfg.status_forcelist.contains status

/-- Models the urllib3 Retry request loop: request number i is sent; on a
forcelisted status one retry is consumed and the next request is sent,
until the budget is exhausted (MaxRetryError after the last response).
Returns the number of requests sent, given the remaining retry budget and
the index of the request about to be sent. -/
def retryGo (cfg : RetryConfig) (server : Nat → Nat) : Nat → Nat → Nat
  | 0, i => i + 1
  | r + 1, i =>
    if isRetryStatus cfg (server i) then retryGo cfg server r (i + 1) else i + 1

/-- Total number of requests the mounted adapter sends against a server
whose response status to request i is server i. -/
def retryAttempts (cfg : RetryConfig) (server : Nat → Nat) : Nat :=
  retryGo cfg server cfg.total 0

/-- Models the urllib3 exponential backoff: backoff_factor * 2 ^ (n - 1)
before the n-th retry. -/
def backoffTime (cfg : RetryConfig) (consecutive : Nat) : Rat :=
  cfg.backoff_factor * 2 ^ (consecutive - 1)

/-- Models the sleep urllib3 performs before the n-th retry: with
respect_retry_after_header set, a server-supplied Retry-After value takes
precedence over the computed backoff. -/
def retrySleep (cfg : RetryConfig) (retryAfter : Option Rat) (consecutive : Nat) : Rat :=
  if cfg.respect_retry_after_header then
    match retryAfter with
    | some t => t
    | none => backoffTime cfg consecutive
  else backoffTime cfg consecutive

/-- Models req.headers.update: replace the entry for the given key. -/
def headersUpdate (headers : List (String × String)) (key value : String) :
    List (String × String) :=
  (key, value) :: headers.filter (fun h => h.1 != key)

/-- SentryAuthentication.__call__: update the Authorization header of the
request with the string " Bearer " followed by the api token (the source
concatenates a leading space before the word Bearer). -/
def SentryAuthentication.call (api_token : String) (headers : List (String × String)) :
    List (String × String) :=
  headersUpdate headers "Authorization" (" Bearer " ++ api_token)

deriving instance DecidableEq for Except

/-- True when the trace event is a record emission for the stream. -/
def isRecordFor {α : Type} (stream : String) : Emitted α → Bool
  | Emitted.record s _ => s == stream
  | _ => false

/-- True when the trace event is a bookmark write (of any stream). -/
def isBookmarkWrite {α : Type} : Emitted α → Bool
  | Emitted.bookmarkWrite _ _ _ => true
  | _ => false

/-- True when, somewhere in the trace, a record for the stream occurs
after a bookmark write for the same stream. -/
def recordAfterBookmark {α : Type} (stream : String) : List (Emitted α) → Bool
  | [] => false
  | Emitted.bookmarkWrite s _ _ :: rest =>
    (s == stream && rest.any (isRecordFor stream)) || recordAfterBookmark stream rest
  | _ :: rest => recordAfterBookmark stream rest

/-- Number of records in the trace carrying an issue with the given id. -/
def countRecordsWithId (tr : List (Emitted Issue)) (i : String) : Nat :=
  tr.countP (fun e => match e with
    | Emitted.record _ issue => issue.id == i
    | _ => false)

/-! ## Helper lemmas -/

theorem find?_filter_eq {α : Type} (p q : α → Bool)
    (h : ∀ x, p x = true → q x = true) :
    ∀ l : List α, (List.filter q l).find? p = l.find? p := by
  intro l
  induction l with
  | nil => rfl
  | cons x xs ih =>
    cases hq : q x with
    | true =>
      rw [List.filter_cons_of_pos hq]
      cases hp : p x with
      | true => rw [List.find?_cons_of_pos xs hp, List.find?_cons_of_pos (xs.filter q) hp]
      | false =>
        rw [List.find?_cons_of_neg xs (by simp [hp]),
          List.find?_cons_of_neg (xs.filter q) (by simp [hp]), ih]
    | false =>
      have hp : p x = false := by
        cases hpx : p x
        · rfl
        · exact absurd (h x hpx) (by simp [hq])
      rw [List.filter_cons_of_neg (by simp [hq]), ih, List.find?_cons_of_neg xs (by simp [hp])]

theorem get_bookmark_write_same (s : SingerState) (st f v : String) :
    get_bookmark (write_bookmark s st f v) st f = some v := by
  simp [get_bookmark, write_bookmark, List.find?]

theorem get_bookmark_write_other (s : SingerState) (st f v st2 f2 : String)
    (h : st2 ≠ st) :
    get_bookmark (write_bookmark s st f v) st2 f2 = get_bookmark s st2 f2 := by
  unfold get_bookmark write_bookmark
  rw [List.find?_cons_of_neg _ (by simp [Ne.symm h])]
  rw [find?_filter_eq]
  intro x hx
  simp only [Bool.and_eq_true, beq_iff_eq] at hx
  simp [hx.1, h]

theorem paginate_cons_continue {α : Type} (p : Page α) (rest : List (Page α))
    (h : continuePagination p = true) :
    paginate (p :: rest) = (p.records ++ (paginate rest).1, (paginate rest).2 + 1) := by
  simp [paginate, h]

theorem paginate_cons_stop {α : Type} (p : Page α) (rest : List (Page α))
    (h : continuePagination p = false) :
    paginate (p :: rest) = (p.records, 1) := by
  simp [paginate, h]

theorem paginate_wellFormed {α : Type} :
    ∀ chain : List (Page α), wellFormedChain chain = true →
      paginate chain = ((chain.map Page.records).flatten, chain.length) := by
  intro chain
  induction chain with
  | nil => intro h; simp [wellFormedChain] at h
  | cons p rest ih =>
    intro h
    cases rest with
    | nil =>
      have hc : continuePagination p = false := by
        simpa [wellFormedChain] using h
      simp [paginate_cons_stop p [] hc]
    | cons q rest2 =>
      have hc : continuePagination p = true ∧ wellFormedChain (q :: rest2) = true := by
        simpa [wellFormedChain, Bool.and_eq_true] using h
      rw [paginate_cons_continue p (q :: rest2) hc.1, ih hc.2]
      simp

/-! ## Claim C1 -/

/-- Claim C1 counterexample: the activity fetch is among the list fetches
named by the claim, but on a finite three page chain whose second page
filters to empty under the bookmark it stops early: the third page is
never fetched and its in-window record is not returned, so the loop does
not fetch each page exactly once nor return all records the server
returned. -/
theorem activity_loop_not_exhaustive_cex :
    SentryClient.activity
        (Except.ok [⟨[⟨5, none⟩], some ⟨"u2", "true"⟩⟩,
                    ⟨[⟨-1, none⟩], some ⟨"u3", "true"⟩⟩,
                    ⟨[⟨6, none⟩], none⟩])
        [("activity", "start", "0")] = Except.ok [⟨5, none⟩] ∧
    SentryClient.filter_activities
        (([(⟨[⟨5, none⟩], some ⟨"u2", "true"⟩⟩ : Page Activity),
           ⟨[⟨-1, none⟩], some ⟨"u3", "true"⟩⟩,
           ⟨[⟨6, none⟩], none⟩].map Page.records).flatten) 0 =
      [⟨5, none⟩, ⟨6, none⟩] ∧
    SentryClient.activity
        (Except.ok [⟨[⟨5, none⟩], some ⟨"u2", "true"⟩⟩,
                    ⟨[⟨-1, none⟩], some ⟨"u3", "true"⟩⟩,
                    ⟨[⟨6, none⟩], none⟩])
        [("activity", "start", "0")] ≠
      Except.ok (SentryClient.filter_activities
        (([(⟨[⟨5, none⟩], some ⟨"u2", "true"⟩⟩ : Page Activity),
           ⟨[⟨-1, none⟩], some ⟨"u3", "true"⟩⟩,
           ⟨[⟨6, none⟩], none⟩].map Page.records).flatten) 0) := by
  refine ⟨by decide, by decide, by decide⟩

/-- Claim C1 (amended): over a well-formed finite chain of N pages the
pagination loop of the issues, events and teams fetches terminates after
exactly N fetches, returning all records concatenated in server order;
it stops on a page with no next relation and on a page whose results
flag is not the string true even when a next url is present; the issues
and teams client fetches are exactly this loop over the chain their
network returns.  The activity fetch instead filters each page by the
bookmark and stops at the first page that filters to empty, so later
pages may never be fetched (see the counterexample and claim C10). -/
theorem pagination_loop_terminates_exactly {α : Type} (chain : List (Page α))
    (h : wellFormedChain chain = true)
    (inet : String → Option String → Except Err (List (Page Issue)))
    (tnet : Except Err (List (Page Team)))
    (pid : String) (st : SingerState) :
    paginate chain = ((chain.map Page.records).flatten, chain.length) ∧
    (∀ (p : Page α) (rest : List (Page α)), continuePagination p = false →
      paginate (p :: rest) = (p.records, 1)) ∧
    SentryClient.issues inet pid st =
      (inet pid (get_bookmark st "issues" "start")).map (fun c => (paginate c).1) ∧
    SentryClient.teams tnet st = tnet.map (fun c => (paginate c).1) := by
  refine ⟨paginate_wellFormed chain h, ?_, rfl, rfl⟩
  intro p rest hc
  simp [paginate, hc]

/-- Witness for claim C1: a three page chain whose last page carries a
next url with results flag false terminates after exactly three fetches
with all records in order. -/
theorem pagination_loop_terminates_exactly_witness :
    paginate [(⟨[1, 2], some ⟨"u2", "true"⟩⟩ : Page Nat),
              ⟨[3], some ⟨"u3", "true"⟩⟩,
              ⟨[4, 5], some ⟨"u4", "false"⟩⟩] = ([1, 2, 3, 4, 5], 3) := by
  have h := pagination_loop_terminates_exactly
    [(⟨[1, 2], some ⟨"u2", "true"⟩⟩ : Page Nat),
     ⟨[3], some ⟨"u3", "true"⟩⟩,
     ⟨[4, 5], some ⟨"u4", "false"⟩⟩] (by decide)
    (fun _ _ => Except.ok []) (Except.ok []) "p" []
  simpa using h.1

/-! ## Shape lemmas for sync_issues -/

theorem sync_issues_eq_of_fail (projects : List Project)
    (inet : String → Option String → Except Err (List (Page Issue)))
    (anet : Except Err (List (Page Activity))) (et : Int) (s0 : SingerState)
    (synced : List String) (tr : List (Emitted Issue)) (e : Err)
    (hp : projectPhase inet s0 projects = (synced, tr, some e)) :
    SentrySync.sync_issues projects inet anet et s0 =
      (Emitted.schema "issues" ["id"] :: tr, s0, some e) := by
  simp [SentrySync.sync_issues, hp]

theorem sync_issues_eq_of_activity_fail (projects : List Project)
    (inet : String → Option String → Except Err (List (Page Issue)))
    (anet : Except Err (List (Page Activity))) (et : Int) (s0 : SingerState)
    (synced : List String) (tr : List (Emitted Issue)) (e : Err)
    (hp : projectPhase inet s0 projects = (synced, tr, none))
    (ha : SentryClient.activity anet (write_bookmark s0 "issues" "start" (strftime et)) =
      .error e) :
    SentrySync.sync_issues projects inet anet et s0 =
      (Emitted.schema "issues" ["id"] :: tr ++
         [Emitted.bookmarkWrite "issues" "start" (strftime et)],
       write_bookmark s0 "issues" "start" (strftime et), some e) := by
  simp [SentrySync.sync_issues, hp, ha]

theorem sync_issues_eq_of_ok (projects : List Project)
    (inet : String → Option String → Except Err (List (Page Issue)))
    (anet : Except Err (List (Page Activity))) (et : Int) (s0 : SingerState)
    (synced : List String) (tr : List (Emitted Issue)) (acts : List Activity)
    (hp : projectPhase inet s0 projects = (synced, tr, none))
    (ha : SentryClient.activity anet (write_bookmark s0 "issues" "start" (strftime et)) =
      .ok acts) :
    SentrySync.sync_issues projects inet anet et s0 =
      (Emitted.schema "issues" ["id"] :: tr ++ Emitted.bookmarkWrite "issues" "start" (strftime et) ::
         (activityPhase (acts.filter (fun a => a.issue.isSome)) synced).1 ++
         [Emitted.bookmarkWrite "activity" "start" (strftime et)],
       write_bookmark (write_bookmark s0 "issues" "start" (strftime et)) "activity" "start"
         (strftime et),
       none) := by
  simp [SentrySync.sync_issues, hp, ha]

theorem sync_issues_none_inv (projects : List Project)
    (inet : String → Option String → Except Err (List (Page Issue)))
    (anet : Except Err (List (Page Activity))) (et : Int) (s0 : SingerState)
    (h : (SentrySync.sync_issues projects inet anet et s0).2.2 = none) :
    ∃ synced tr acts,
      projectPhase inet s0 projects = (synced, tr, none) ∧
      SentryClient.activity anet (write_bookmark s0 "issues" "start" (strftime et)) =
        .ok acts := by
  rcases hp : projectPhase inet s0 projects with ⟨synced, tr, err⟩
  cases err with
  | some e =>
    rw [sync_issues_eq_of_fail projects inet anet et s0 synced tr e hp] at h
    simp at h
  | none =>
    cases ha : SentryClient.activity anet (write_bookmark s0 "issues" "start" (strftime et)) with
    | error e =>
      rw [sync_issues_eq_of_activity_fail projects inet anet et s0 synced tr e hp ha] at h
      simp at h
    | ok acts =>
      refine ⟨synced, tr, acts, ?_, ?_⟩
      · first
        | exact hp
        | rfl
      · first
        | exact ha
        | rfl

theorem isEmpty_false_of_ne_nil {α : Type} (l : List α) (h : l ≠ []) :
    l.isEmpty = false := by
  cases l with
  | nil => exact absurd rfl h
  | cons a t => rfl

/-! ## Claim C2 -/

/-- Claim C2 (confirmed): for every stream writing a bookmark (issues,
activity, events), the bookmark value stored in the state at the end of a
successful sync pass is strftime of the extraction time captured at the
start of the pass. -/
theorem bookmark_equals_extraction_start (projects : List Project)
    (inet : String → Option String → Except Err (List (Page Issue)))
    (anet : Except Err (List (Page Activity)))
    (enet : String → Option String → Except Err (List (Page Event)))
    (et : Int) (s0 : SingerState)
    (hsync : (SentrySync.sync_issues projects inet anet et s0).2.2 = none)
    (hne : projects ≠ []) :
    get_bookmark (SentrySync.sync_issues projects inet anet et s0).2.1 "issues" "start"
      = some (strftime et) ∧
    get_bookmark (SentrySync.sync_issues projects inet anet et s0).2.1 "activity" "start"
      = some (strftime et) ∧
    get_bookmark (SentrySync.sync_events projects enet et s0).2 "events" "start"
      = some (strftime et) := by
  obtain ⟨synced, tr, acts, hp, ha⟩ := sync_issues_none_inv projects inet anet et s0 hsync
  rw [sync_issues_eq_of_ok projects inet anet et s0 synced tr acts hp ha]
  refine ⟨?_, ?_, ?_⟩
  · show get_bookmark (write_bookmark _ "activity" "start" _) "issues" "start" = _
    rw [get_bookmark_write_other _ _ _ _ _ _ (by decide), get_bookmark_write_same]
  · exact get_bookmark_write_same _ _ _ _
  · simp [SentrySync.sync_events, isEmpty_false_of_ne_nil projects hne,
      get_bookmark_write_same]

/-- Witness for claim C2 at a concrete successful run. -/
theorem bookmark_equals_extraction_start_witness :
    get_bookmark (SentrySync.sync_issues [⟨"1", "p1"⟩]
        (fun _ _ => Except.ok [⟨[⟨"1"⟩], none⟩])
        (Except.ok [⟨[⟨5, some ⟨"2"⟩⟩], none⟩]) 7
        [("activity", "start", "0")]).2.1 "issues" "start" = some "7" ∧
    get_bookmark (SentrySync.sync_issues [⟨"1", "p1"⟩]
        (fun _ _ => Except.ok [⟨[⟨"1"⟩], none⟩])
        (Except.ok [⟨[⟨5, some ⟨"2"⟩⟩], none⟩]) 7
        [("activity", "start", "0")]).2.1 "activity" "start" = some "7" ∧
    get_bookmark (SentrySync.sync_events [⟨"1", "p1"⟩]
        (fun _ _ => Except.ok [⟨[⟨"e1"⟩], none⟩]) 7
        [("activity", "start", "0")]).2 "events" "start" = some "7" :=
  bookmark_equals_extraction_start [⟨"1", "p1"⟩]
    (fun _ _ => Except.ok [⟨[⟨"1"⟩], none⟩])
    (Except.ok [⟨[⟨5, some ⟨"2"⟩⟩], none⟩])
    (fun _ _ => Except.ok [⟨[⟨"e1"⟩], none⟩]) 7
    [("activity", "start", "0")] (by decide) (by decide)

/-! ## Claim C3 -/

theorem projectPhase_trace_records
    (inet : String → Option String → Except Err (List (Page Issue))) (st : SingerState) :
    ∀ (projects : List Project) (e : Emitted Issue),
      e ∈ (projectPhase inet st projects).2.1 → ∃ i, e = Emitted.record "issues" i := by
  intro projects
  induction projects with
  | nil => intro e he; simp [projectPhase] at he
  | cons p ps ih =>
    intro e he
    cases hc : SentryClient.issues inet p.slug st with
    | error er => simp [projectPhase, hc] at he
    | ok issues =>
      simp only [projectPhase, hc] at he
      rcases List.mem_append.mp he with h1 | h2
      · rcases List.mem_map.mp h1 with ⟨i, _, rfl⟩
        exact ⟨i, rfl⟩
      · exact ih e h2

theorem activityPhase_trace_records :
    ∀ (acts : List Activity) (synced : List String) (e : Emitted Issue),
      e ∈ (activityPhase acts synced).1 → ∃ i, e = Emitted.record "issues" i := by
  intro acts
  induction acts with
  | nil => intro synced e he; simp [activityPhase] at he
  | cons a rest ih =>
    intro synced e he
    cases ha : a.issue with
    | none =>
      simp only [activityPhase, ha] at he
      exact ih synced e he
    | some issue =>
      simp only [activityPhase, ha] at he
      cases hmem : synced.contains issue.id with
      | true =>
        simp only [hmem, if_true] at he
        exact ih synced e he
      | false =>
        simp only [hmem, if_false] at he
        rcases List.mem_cons.mp he with h1 | h2
        · exact ⟨issue, h1⟩
        · exact ih (synced ++ [issue.id]) e h2

/-- Claim C3 counterexample: a concrete successful issues sync in which
an issues record extracted from the activity feed is emitted after the
issues start bookmark write, so the bookmark is advanced mid-pass. -/
theorem issues_record_after_bookmark_cex :
    recordAfterBookmark "issues"
      (SentrySync.sync_issues [⟨"1", "p1"⟩]
        (fun _ _ => Except.ok [⟨[⟨"1"⟩], none⟩])
        (Except.ok [⟨[⟨5, some ⟨"2"⟩⟩], none⟩]) 7
        [("activity", "start", "0")]).1 = true ∧
    (SentrySync.sync_issues [⟨"1", "p1"⟩]
        (fun _ _ => Except.ok [⟨[⟨"1"⟩], none⟩])
        (Except.ok [⟨[⟨5, some ⟨"2"⟩⟩], none⟩]) 7
        [("activity", "start", "0")]).2.2 = none :=
  ⟨by decide, by decide⟩

/-- Claim C3 (amended): within one successful issues sync pass the trace
is the schema, then the per-project issue records, then the issues start
bookmark write, then the activity-derived issue records, then the
activity start bookmark write: each bookmark is written exactly once at
the end of the phase it bounds, but the activity-derived issue records
are emitted after the issues start bookmark write. -/
theorem bookmark_writes_at_phase_ends (projects : List Project)
    (inet : String → Option String → Except Err (List (Page Issue)))
    (anet : Except Err (List (Page Activity))) (et : Int) (s0 : SingerState)
    (hsync : (SentrySync.sync_issues projects inet anet et s0).2.2 = none) :
    ∃ pr ar,
      (SentrySync.sync_issues projects inet anet et s0).1 =
        Emitted.schema "issues" ["id"] :: pr ++
          Emitted.bookmarkWrite "issues" "start" (strftime et) :: ar ++
          [Emitted.bookmarkWrite "activity" "start" (strftime et)] ∧
      (∀ e ∈ pr, ∃ i, e = Emitted.record "issues" i) ∧
      (∀ e ∈ ar, ∃ i, e = Emitted.record "issues" i) := by
  obtain ⟨synced, tr, acts, hp, ha⟩ := sync_issues_none_inv projects inet anet et s0 hsync
  refine ⟨tr, (activityPhase (acts.filter (fun a => a.issue.isSome)) synced).1, ?_, ?_, ?_⟩
  · rw [sync_issues_eq_of_ok projects inet anet et s0 synced tr acts hp ha]
  · intro e he
    exact projectPhase_trace_records inet s0 projects e (by rw [hp]; exact he)
  · intro e he
    exact activityPhase_trace_records (acts.filter (fun a => a.issue.isSome)) synced e he

/-- Witness for amended claim C3 at a concrete successful run. -/
theorem bookmark_writes_at_phase_ends_witness :
    ∃ pr ar,
      (SentrySync.sync_issues [⟨"1", "p1"⟩]
        (fun _ _ => Except.ok [⟨[⟨"3"⟩], none⟩])
        (Except.ok [⟨[⟨5, some ⟨"4"⟩⟩], none⟩]) 9
        [("activity", "start", "0")]).1 =
        Emitted.schema "issues" ["id"] :: pr ++
          Emitted.bookmarkWrite "issues" "start" (strftime 9) :: ar ++
          [Emitted.bookmarkWrite "activity" "start" (strftime 9)] ∧
      (∀ e ∈ pr, ∃ i, e = Emitted.record "issues" i) ∧
      (∀ e ∈ ar, ∃ i, e = Emitted.record "issues" i) :=
  bookmark_writes_at_phase_ends [⟨"1", "p1"⟩]
    (fun _ _ => Except.ok [⟨[⟨"3"⟩], none⟩])
    (Except.ok [⟨[⟨5, some ⟨"4"⟩⟩], none⟩]) 9
    [("activity", "start", "0")] (by decide)

/-! ## Claim C4 -/

theorem activityPhase_cons_none (a : Activity) (rest : List Activity)
    (synced : List String) (ha : a.issue = none) :
    activityPhase (a :: rest) synced = activityPhase rest synced := by
  simp [activityPhase, ha]

theorem activityPhase_cons_mem (a : Activity) (rest : List Activity)
    (synced : List String) (issue : Issue) (ha : a.issue = some issue)
    (hmem : synced.contains issue.id = true) :
    activityPhase (a :: rest) synced = activityPhase rest synced := by
  simp [activityPhase, ha, List.mem_of_elem_eq_true hmem]

theorem activityPhase_cons_new (a : Activity) (rest : List Activity)
    (synced : List String) (issue : Issue) (ha : a.issue = some issue)
    (hmem : synced.contains issue.id = false) :
    activityPhase (a :: rest) synced =
      (Emitted.record "issues" issue :: (activityPhase rest (synced ++ [issue.id])).1,
       (activityPhase rest (synced ++ [issue.id])).2) := by
  have hnot : issue.id ∉ synced := by
    intro h
    have h2 := List.elem_eq_true_of_mem h
    unfold List.contains at hmem
    rw [h2] at hmem
    cases hmem
  simp [activityPhase, ha, hnot]

theorem projectPhase_count
    (inet : String → Option String → Except Err (List (Page Issue))) (st : SingerState)
    (i : String) :
    ∀ projects : List Project,
      countRecordsWithId (projectPhase inet st projects).2.1 i =
        (projectPhase inet st projects).1.countP (fun s => s == i) := by
  intro projects
  induction projects with
  | nil => rfl
  | cons p ps ih =>
    cases hc : SentryClient.issues inet p.slug st with
    | error er => simp [projectPhase, hc, countRecordsWithId]
    | ok issues =>
      simp only [projectPhase, hc, countRecordsWithId] at *
      rw [List.countP_append, List.countP_append, List.countP_map, List.countP_map]
      congr 1

theorem activityPhase_count (i : String) :
    ∀ (acts : List Activity) (synced : List String),
      countRecordsWithId (activityPhase acts synced).1 i ≤ 1 ∧
      (synced.contains i = true → countRecordsWithId (activityPhase acts synced).1 i = 0) := by
  intro acts
  induction acts with
  | nil =>
    intro synced
    exact ⟨by simp [activityPhase, countRecordsWithId],
           fun _ => by simp [activityPhase, countRecordsWithId]⟩
  | cons a rest ih =>
    intro synced
    cases ha : a.issue with
    | none =>
      rw [activityPhase_cons_none a rest synced ha]
      exact ih synced
    | some issue =>
      cases hmem : synced.contains issue.id with
      | true =>
        rw [activityPhase_cons_mem a rest synced issue ha hmem]
        exact ih synced
      | false =>
        rw [activityPhase_cons_new a rest synced issue ha hmem]
        cases hid : issue.id == i with
        | true =>
          have hidi : issue.id = i := eq_of_beq hid
          have h0 : countRecordsWithId (activityPhase rest (synced ++ [issue.id])).1 i = 0 := by
            apply (ih (synced ++ [issue.id])).2
            apply List.elem_eq_true_of_mem
            apply List.mem_append_right
            rw [hidi]
            exact List.mem_singleton.mpr rfl
          constructor
          · have hcons : countRecordsWithId
                (Emitted.record "issues" issue ::
                  (activityPhase rest (synced ++ [issue.id])).1) i =
                countRecordsWithId (activityPhase rest (synced ++ [issue.id])).1 i + 1 := by
              simp [countRecordsWithId, List.countP_cons, hid]
            rw [hcons, h0]
          · intro hcont
            rw [hidi] at hmem
            rw [hmem] at hcont
            cases hcont
        | false =>
          have hrest := ih (synced ++ [issue.id])
          constructor
          · simpa [countRecordsWithId, List.countP_cons, hid] using hrest.1
          · intro hcont
            have hcont2 : (synced ++ [issue.id]).contains i = true := by
              apply List.elem_eq_true_of_mem
              exact List.mem_append_left _ (List.mem_of_elem_eq_true hcont)
            simpa [countRecordsWithId, List.countP_cons, hid] using hrest.2 hcont2

/-- Claim C4 counterexample: two projects whose issues fetches both return
the issue with id 1; the per-project loop emits it unconditionally both
times, so the issue id is emitted twice within one invocation. -/
theorem duplicate_issue_emission_cex :
    countRecordsWithId
      (SentrySync.sync_issues [⟨"1", "p1"⟩, ⟨"2", "p2"⟩]
        (fun _ _ => Except.ok [⟨[⟨"1"⟩], none⟩])
        (Except.ok [⟨[], none⟩]) 7
        [("activity", "start", "0")]).1 "1" = 2 ∧
    ¬ countRecordsWithId
      (SentrySync.sync_issues [⟨"1", "p1"⟩, ⟨"2", "p2"⟩]
        (fun _ _ => Except.ok [⟨[⟨"1"⟩], none⟩])
        (Except.ok [⟨[], none⟩]) 7
        [("activity", "start", "0")]).1 "1" ≤ 1 :=
  ⟨by decide, by decide⟩

/-- Claim C4 (amended): the per-invocation issues_synced collection is
only consulted before emitting activity-derived issues, so deduplication
holds provided the ids returned by the per-project issues fetches are
pairwise distinct: under that hypothesis every issue id is emitted at
most once in a successful pass; in particular an issues fetch returning X
plus an activity referencing X yields exactly one record for X. -/
theorem dedup_under_distinct_fetch_ids (projects : List Project)
    (inet : String → Option String → Except Err (List (Page Issue)))
    (anet : Except Err (List (Page Activity))) (et : Int) (s0 : SingerState)
    (i : String)
    (hsync : (SentrySync.sync_issues projects inet anet et s0).2.2 = none)
    (hnodup : (projectPhase inet s0 projects).1.Nodup) :
    countRecordsWithId (SentrySync.sync_issues projects inet anet et s0).1 i ≤ 1 := by
  obtain ⟨synced, tr, acts, hp, ha⟩ := sync_issues_none_inv projects inet anet et s0 hsync
  rw [sync_issues_eq_of_ok projects inet anet et s0 synced tr acts hp ha]
  have hsynced : (projectPhase inet s0 projects).1 = synced := by rw [hp]
  rw [hsynced] at hnodup
  have htr : countRecordsWithId tr i = synced.countP (fun s => s == i) := by
    have h2 := projectPhase_count inet s0 i projects
    rw [hp] at h2
    exact h2
  have har := activityPhase_count i (acts.filter (fun a => a.issue.isSome)) synced
  have hsplit : countRecordsWithId
      (Emitted.schema "issues" ["id"] :: tr ++
        Emitted.bookmarkWrite "issues" "start" (strftime et) ::
        (activityPhase (acts.filter (fun a => a.issue.isSome)) synced).1 ++
        [Emitted.bookmarkWrite "activity" "start" (strftime et)]) i =
      countRecordsWithId tr i +
        countRecordsWithId (activityPhase (acts.filter (fun a => a.issue.isSome)) synced).1 i := by
    simp [countRecordsWithId, List.countP_cons, List.countP_append]
  rw [hsplit, htr]
  have hcount : synced.countP (fun s => s == i) = synced.count i := rfl
  rw [hcount]
  cases hc : synced.count i with
  | zero => simpa using har.1
  | succ n =>
    have hmem : i ∈ synced := by
      apply List.count_pos_iff.mp
      omega
    have hle : synced.count i ≤ 1 := List.nodup_iff_count_le_one.mp hnodup i
    have h0 : countRecordsWithId
        (activityPhase (acts.filter (fun a => a.issue.isSome)) synced).1 i = 0 :=
      har.2 (List.elem_eq_true_of_mem hmem)
    omega

/-- Witness for amended claim C4: a run with an issues fetch returning
issue 1 and an activity referencing the same issue 1 emits at most one
record for id 1. -/
theorem dedup_under_distinct_fetch_ids_witness :
    countRecordsWithId
      (SentrySync.sync_issues [⟨"1", "p1"⟩]
        (fun _ _ => Except.ok [⟨[⟨"1"⟩], none⟩])
        (Except.ok [⟨[⟨5, some ⟨"1"⟩⟩], none⟩]) 7
        [("activity", "start", "0")]).1 "1" ≤ 1 :=
  dedup_under_distinct_fetch_ids [⟨"1", "p1"⟩]
    (fun _ _ => Except.ok [⟨[⟨"1"⟩], none⟩])
    (Except.ok [⟨[⟨5, some ⟨"1"⟩⟩], none⟩]) 7
    [("activity", "start", "0")] "1" (by decide) (by decide)

/-! ## Claim C5 -/

/-- Claim C5 (confirmed): any failure of a projects events fetch makes
the client return none instead of raising, the per-project events loop
skips that project and continues with the remaining ones, and when the
project list is non-empty the events start bookmark is still written at
the end of the pass with the extraction start time. -/
theorem events_skip_on_failure_bookmark_advances (projects : List Project)
    (enet : String → Option String → Except Err (List (Page Event)))
    (et : Int) (s0 : SingerState) (hne : projects ≠ []) :
    (SentrySync.sync_events projects enet et s0).1 =
      Emitted.schema "events" ["eventID"] :: eventsProjectPhase enet s0 projects ++
        [Emitted.bookmarkWrite "events" "start" (strftime et)] ∧
    get_bookmark (SentrySync.sync_events projects enet et s0).2 "events" "start" =
      some (strftime et) ∧
    (∀ (pid : String) (st : SingerState) (e : Err),
      enet pid (get_bookmark st "events" "start") = .error e →
        SentryClient.events enet pid st = none) ∧
    (∀ (p : Project) (ps : List Project),
      SentryClient.events enet p.id s0 = none →
        eventsProjectPhase enet s0 (p :: ps) = eventsProjectPhase enet s0 ps) := by
  refine ⟨?_, ?_, ?_, ?_⟩
  · simp [SentrySync.sync_events, isEmpty_false_of_ne_nil projects hne]
  · simp [SentrySync.sync_events, isEmpty_false_of_ne_nil projects hne,
      get_bookmark_write_same]
  · intro pid st e he
    simp [SentryClient.events, he]
  · intro p ps hn
    simp [eventsProjectPhase, hn]

/-- Witness for claim C5: three projects, the second of which fails its
events fetch with a request error; the trace still carries the records of
the first and third projects and ends with the events bookmark write. -/
theorem events_skip_on_failure_bookmark_advances_witness :
    (SentrySync.sync_events [⟨"1", "p1"⟩, ⟨"2", "p2"⟩, ⟨"3", "p3"⟩]
      (fun pid _ => if pid == "2" then Except.error Err.requestError
        else Except.ok [⟨[⟨"e" ++ pid⟩], none⟩]) 7 []).1 =
      Emitted.schema "events" ["eventID"] ::
        eventsProjectPhase
          (fun pid _ => if pid == "2" then Except.error Err.requestError
            else Except.ok [⟨[⟨"e" ++ pid⟩], none⟩]) []
          [⟨"1", "p1"⟩, ⟨"2", "p2"⟩, ⟨"3", "p3"⟩] ++
        [Emitted.bookmarkWrite "events" "start" (strftime 7)] ∧
    get_bookmark (SentrySync.sync_events [⟨"1", "p1"⟩, ⟨"2", "p2"⟩, ⟨"3", "p3"⟩]
      (fun pid _ => if pid == "2" then Except.error Err.requestError
        else Except.ok [⟨[⟨"e" ++ pid⟩], none⟩]) 7 []).2 "events" "start" =
      some (strftime 7) :=
  ⟨(events_skip_on_failure_bookmark_advances [⟨"1", "p1"⟩, ⟨"2", "p2"⟩, ⟨"3", "p3"⟩]
      (fun pid _ => if pid == "2" then Except.error Err.requestError
        else Except.ok [⟨[⟨"e" ++ pid⟩], none⟩]) 7 [] (by decide)).1,
   (events_skip_on_failure_bookmark_advances [⟨"1", "p1"⟩, ⟨"2", "p2"⟩, ⟨"3", "p3"⟩]
      (fun pid _ => if pid == "2" then Except.error Err.requestError
        else Except.ok [⟨[⟨"e" ++ pid⟩], none⟩]) 7 [] (by decide)).2.1⟩

/-! ## Claim C6 -/

theorem all_not_bookmark_of_records {α : Type} (stream : String) (l : List α) :
    ((l.map (Emitted.record stream)).all (fun ev => !isBookmarkWrite ev)) = true := by
  induction l with
  | nil => rfl
  | cons a t ih => simp [isBookmarkWrite, ih]

/-- Claim C6 counterexample: the activity fetch inside the issues sync
fails with a request error; the error propagates, but in that failing run
the issues start bookmark has already been advanced (it was absent in the
initial state), contradicting the claim that a propagated fetch failure
advances no bookmark of the stream. -/
theorem activity_failure_after_issues_bookmark_cex :
    (SentrySync.sync_issues [⟨"1", "p1"⟩]
        (fun _ _ => Except.ok [⟨[⟨"1"⟩], none⟩])
        (Except.error Err.requestError) 7
        [("activity", "start", "0")]).2.2 = some Err.requestError ∧
    get_bookmark (SentrySync.sync_issues [⟨"1", "p1"⟩]
        (fun _ _ => Except.ok [⟨[⟨"1"⟩], none⟩])
        (Except.error Err.requestError) 7
        [("activity", "start", "0")]).2.1 "issues" "start" = some "7" ∧
    get_bookmark [("activity", "start", "0")] "issues" "start" = none :=
  ⟨by decide, by decide, by decide⟩

/-- Claim C6 (amended): a failure of a per-project issues list fetch
propagates out of the issues sync with the state unchanged, so no
bookmark is advanced and the persisted bookmark remains the resume
point; the users and teams syncs propagate fetch failures, never write a
bookmark and leave the state unchanged; a failure of the activity fetch
inside the issues sync, however, propagates only after the issues start
bookmark has been advanced. -/
theorem list_fetch_failure_preserves_state (projects : List Project)
    (inet : String → Option String → Except Err (List (Page Issue)))
    (anet : Except Err (List (Page Activity))) (et : Int) (s0 : SingerState)
    (unet : Except Err (List User)) (tnet : Except Err (List (Page Team)))
    (e : Err)
    (hfail : (projectPhase inet s0 projects).2.2 = some e) :
    (SentrySync.sync_issues projects inet anet et s0).2.1 = s0 ∧
    (SentrySync.sync_issues projects inet anet et s0).2.2 = some e ∧
    (SentrySync.sync_users unet s0).2.1 = s0 ∧
    ((SentrySync.sync_users unet s0).1.all (fun ev => !isBookmarkWrite ev)) = true ∧
    (SentrySync.sync_teams tnet s0).2.1 = s0 ∧
    ((SentrySync.sync_teams tnet s0).1.all (fun ev => !isBookmarkWrite ev)) = true := by
  rcases hp : projectPhase inet s0 projects with ⟨synced, tr, err⟩
  rw [hp] at hfail
  simp only at hfail
  subst hfail
  have hs := sync_issues_eq_of_fail projects inet anet et s0 synced tr e hp
  refine ⟨by rw [hs], by rw [hs], ?_, ?_, ?_, ?_⟩
  · cases unet with
    | error er => simp [SentrySync.sync_users, SentryClient.users]
    | ok users => simp [SentrySync.sync_users, SentryClient.users]
  · cases unet with
    | error er => simp [SentrySync.sync_users, SentryClient.users, isBookmarkWrite]
    | ok users =>
      simp only [SentrySync.sync_users, SentryClient.users, List.all_cons]
      simp [isBookmarkWrite, all_not_bookmark_of_records "users" users]
  · cases tnet with
    | error er => simp [SentrySync.sync_teams, SentryClient.teams, Except.map]
    | ok chain => simp [SentrySync.sync_teams, SentryClient.teams, Except.map]
  · cases tnet with
    | error er => simp [SentrySync.sync_teams, SentryClient.teams, Except.map, isBookmarkWrite]
    | ok chain =>
      simp only [SentrySync.sync_teams, SentryClient.teams, Except.map, List.all_cons]
      simp [isBookmarkWrite, all_not_bookmark_of_records "teams" (paginate chain).1]

/-- Witness for amended claim C6: a concrete run whose first issues fetch
fails; the state is unchanged and the error propagates, while the users
and teams syncs write no bookmark. -/
theorem list_fetch_failure_preserves_state_witness :
    (SentrySync.sync_issues [⟨"1", "p1"⟩]
        (fun _ _ => Except.error Err.requestError)
        (Except.ok []) 7 [("activity", "start", "0")]).2.1 =
      [("activity", "start", "0")] ∧
    (SentrySync.sync_issues [⟨"1", "p1"⟩]
        (fun _ _ => Except.error Err.requestError)
        (Except.ok []) 7 [("activity", "start", "0")]).2.2 = some Err.requestError ∧
    (SentrySync.sync_users (Except.ok [⟨"u1"⟩]) [("activity", "start", "0")]).2.1 =
      [("activity", "start", "0")] ∧
    ((SentrySync.sync_users (Except.ok [⟨"u1"⟩]) [("activity", "start", "0")]).1.all
      (fun ev => !isBookmarkWrite ev)) = true ∧
    (SentrySync.sync_teams (Except.ok [⟨[⟨"t1"⟩], none⟩]) [("activity", "start", "0")]).2.1 =
      [("activity", "start", "0")] ∧
    ((SentrySync.sync_teams (Except.ok [⟨[⟨"t1"⟩], none⟩]) [("activity", "start", "0")]).1.all
      (fun ev => !isBookmarkWrite ev)) = true :=
  list_fetch_failure_preserves_state [⟨"1", "p1"⟩]
    (fun _ _ => Except.error Err.requestError) (Except.ok []) 7
    [("activity", "start", "0")] (Except.ok [⟨"u1"⟩]) (Except.ok [⟨[⟨"t1"⟩], none⟩])
    Err.requestError (by decide)

/-! ## Claim C7 -/

theorem retryGo_le (cfg : RetryConfig) (server : Nat → Nat) :
    ∀ (rem i : Nat), retryGo cfg server rem i ≤ i + rem + 1 := by
  intro rem
  induction rem with
  | zero => intro i; simp [retryGo]
  | succ r ih =>
    intro i
    cases h : isRetryStatus cfg (server i) with
    | false => simp [retryGo, h]
    | true =>
      simp only [retryGo, h, if_true]
      have := ih (i + 1)
      omega

theorem retryGo_retries_only (cfg : RetryConfig) (server : Nat → Nat) :
    ∀ (rem i j : Nat), i ≤ j → j + 1 < retryGo cfg server rem i →
      isRetryStatus cfg (server j) = true := by
  intro rem
  induction rem with
  | zero =>
    intro i j hij hlt
    simp [retryGo] at hlt
    exact absurd hlt (by omega)
  | succ r ih =>
    intro i j hij hlt
    cases h : isRetryStatus cfg (server i) with
    | false =>
      simp [retryGo, h] at hlt
      exact absurd hlt (by omega)
    | true =>
      simp only [retryGo, h, if_true] at hlt
      rcases Nat.eq_or_lt_of_le hij with heq | hlt2
      · rw [← heq]; exact h
      · exact ih (i + 1) j hlt2 hlt

/-- Claim C7 counterexample: against a server answering 500 to every
request, the session configuration Retry(total=5, ...) sends six
requests, not five: total counts retries after the initial attempt. -/
theorem retry_six_attempts_cex :
    retryAttempts sessionRetryConfig (fun _ => 500) = 6 ∧
    ¬ retryAttempts sessionRetryConfig (fun _ => 500) ≤ 5 :=
  ⟨by decide, by decide⟩

/-- Claim C7 (amended): the mounted retry policy makes at most six
requests in total (one initial attempt plus up to five retries), every
non-final request was answered with a status in the forcelist
{429, 500, 502, 503, 504}, the backoff is exponential with the small
base factor 1/10, and with respect_retry_after_header set a
server-supplied Retry-After value takes precedence over the computed
backoff. -/
theorem retry_policy_bounds (server : Nat → Nat) (ra : Rat) (n : Nat) :
    retryAttempts sessionRetryConfig server ≤ 6 ∧
    (∀ j, j + 1 < retryAttempts sessionRetryConfig server →
      isRetryStatus sessionRetryConfig (server j) = true) ∧
    sessionRetryConfig.status_forcelist = [429, 500, 502, 503, 504] ∧
    sessionRetryConfig.backoff_factor = 1 / 10 ∧
    backoffTime sessionRetryConfig (n + 1) = (1 / 10 : Rat) * 2 ^ n ∧
    retrySleep sessionRetryConfig (some ra) n = ra := by
  refine ⟨?_, ?_, rfl, rfl, rfl, rfl⟩
  · have h := retryGo_le sessionRetryConfig server 5 0
    simpa [retryAttempts, sessionRetryConfig] using h
  · intro j hlt
    exact retryGo_retries_only sessionRetryConfig server 5 0 j (Nat.zero_le j) hlt

/-- Witness for amended claim C7 against the all-500 server. -/
theorem retry_policy_bounds_witness :
    retryAttempts sessionRetryConfig (fun _ => 500) ≤ 6 ∧
    (∀ j, j + 1 < retryAttempts sessionRetryConfig (fun _ => 500) →
      isRetryStatus sessionRetryConfig 500 = true) ∧
    sessionRetryConfig.status_forcelist = [429, 500, 502, 503, 504] ∧
    sessionRetryConfig.backoff_factor = 1 / 10 ∧
    backoffTime sessionRetryConfig (2 + 1) = (1 / 10 : Rat) * 2 ^ 2 ∧
    retrySleep sessionRetryConfig (some 3) 2 = 3 :=
  retry_policy_bounds (fun _ => 500) 3 2

/-! ## Claim C8 -/

/-- Claim C8 counterexample: with token t the Authorization header value
set by the wrapper is the string " Bearer t", carrying a leading space,
which is not the string "Bearer t" the claim states. -/
theorem auth_header_leading_space_cex :
    (SentryAuthentication.call "t" []).lookup "Authorization" = some " Bearer t" ∧
    ¬ (SentryAuthentication.call "t" []).lookup "Authorization" =
        some ("Bearer " ++ "t") :=
  ⟨by decide, by decide⟩

/-- Claim C8 (amended): for every token and every request, the wrapper
sets the Authorization header to exactly one space, the word Bearer,
one space, and the token: the source concatenates " Bearer " (with a
leading space) and the token. -/
theorem auth_header_value_bearer_spaced (api_token : String)
    (headers : List (String × String)) :
    (SentryAuthentication.call api_token headers).lookup "Authorization" =
      some (" Bearer " ++ api_token) := by
  simp [SentryAuthentication.call, headersUpdate, List.lookup]

/-- Witness for amended claim C8 at a concrete token and request. -/
theorem auth_header_value_bearer_spaced_witness :
    (SentryAuthentication.call "tok" [("Accept", "application/json")]).lookup
      "Authorization" = some (" Bearer " ++ "tok") :=
  auth_header_value_bearer_spaced "tok" [("Accept", "application/json")]

/-! ## Claim C9 -/

/-- Claim C9 (confirmed): on a state with no activity start bookmark the
activity fetch raises a TypeError while parsing the missing bookmark,
whatever the network would have answered, instead of performing an
unfiltered full fetch; consequently the issues sync on such a state
(whose per-project phase succeeds) fails with that error after the
issues start bookmark has already been written. -/
theorem missing_activity_bookmark_raises (projects : List Project)
    (inet : String → Option String → Except Err (List (Page Issue)))
    (anet : Except Err (List (Page Activity))) (et : Int) (s0 : SingerState)
    (hnobm : get_bookmark s0 "activity" "start" = none)
    (hok : (projectPhase inet s0 projects).2.2 = none) :
    SentryClient.activity anet (write_bookmark s0 "issues" "start" (strftime et)) =
      .error Err.typeError ∧
    (SentrySync.sync_issues projects inet anet et s0).2.2 = some Err.typeError ∧
    get_bookmark (SentrySync.sync_issues projects inet anet et s0).2.1 "issues" "start" =
      some (strftime et) := by
  have hnone : get_bookmark (write_bookmark s0 "issues" "start" (strftime et))
      "activity" "start" = none := by
    rw [get_bookmark_write_other _ _ _ _ _ _ (by decide)]
    exact hnobm
  have hact : SentryClient.activity anet (write_bookmark s0 "issues" "start" (strftime et)) =
      .error Err.typeError := by
    simp [SentryClient.activity, hnone]
  rcases hp : projectPhase inet s0 projects with ⟨synced, tr, err⟩
  rw [hp] at hok
  simp only at hok
  subst hok
  have heq := sync_issues_eq_of_activity_fail projects inet anet et s0 synced tr
    Err.typeError hp hact
  refine ⟨hact, ?_, ?_⟩
  · rw [heq]
  · rw [heq]
    exact get_bookmark_write_same s0 "issues" "start" (strftime et)

/-- Witness for claim C9: a first run with empty state fails with the
TypeError and leaves the issues start bookmark written. -/
theorem missing_activity_bookmark_raises_witness :
    SentryClient.activity (Except.ok [⟨[], none⟩])
      (write_bookmark [] "issues" "start" (strftime 7)) = .error Err.typeError ∧
    (SentrySync.sync_issues [⟨"1", "p1"⟩]
      (fun _ _ => Except.ok [⟨[⟨"1"⟩], none⟩])
      (Except.ok [⟨[], none⟩]) 7 []).2.2 = some Err.typeError ∧
    get_bookmark (SentrySync.sync_issues [⟨"1", "p1"⟩]
      (fun _ _ => Except.ok [⟨[⟨"1"⟩], none⟩])
      (Except.ok [⟨[], none⟩]) 7 []).2.1 "issues" "start" = some (strftime 7) :=
  missing_activity_bookmark_raises [⟨"1", "p1"⟩]
    (fun _ _ => Except.ok [⟨[⟨"1"⟩], none⟩])
    (Except.ok [⟨[], none⟩]) 7 [] (by decide) (by decide)

/-! ## Claim C10 -/

/-- Claim C10 (confirmed): with a parseable activity start bookmark, the
activity fetch returns immediately with the empty list when the first
page filters to empty under the bookmark, whatever pages follow; and the
pagination loop stops at any fetched page whose filtered list is empty,
discarding every later page, so in-window activities appearing only on
later pages are never returned. -/
theorem activity_stops_at_first_empty_page (st : SingerState) (s : String)
    (bm : Int) (first : Page Activity) (rest : List (Page Activity))
    (hbm : get_bookmark st "activity" "start" = some s)
    (hps : parseDate s = some bm)
    (hfe : SentryClient.filter_activities first.records bm = []) :
    SentryClient.activity (Except.ok (first :: rest)) st = Except.ok [] ∧
    (∀ (cur p : Page Activity) (post : List (Page Activity)),
      SentryClient.filter_activities p.records bm = [] →
      activityLoop bm cur (p :: post) = []) := by
  constructor
  · simp [SentryClient.activity, hbm, hps, hfe]
  · intro cur p post hp
    cases hc : continuePagination cur with
    | false => simp [activityLoop, hc]
    | true => simp [activityLoop, hc, hp]

/-- Witness for claim C10: a chain whose first page holds only an
out-of-window activity yields the empty result although the second page
holds an in-window one; and the loop discards a later page chain as soon
as a page filters to empty. -/
theorem activity_stops_at_first_empty_page_witness :
    SentryClient.activity
      (Except.ok [⟨[⟨-1, none⟩], some ⟨"u", "true"⟩⟩, ⟨[⟨5, none⟩], none⟩])
      [("activity", "start", "0")] = Except.ok [] ∧
    activityLoop 0 ⟨[⟨9, none⟩], some ⟨"u", "true"⟩⟩
      [⟨[⟨-1, none⟩], some ⟨"v", "true"⟩⟩, ⟨[⟨6, none⟩], none⟩] = [] :=
  ⟨(activity_stops_at_first_empty_page [("activity", "start", "0")] "0" 0
      ⟨[⟨-1, none⟩], some ⟨"u", "true"⟩⟩ [⟨[⟨5, none⟩], none⟩]
      (by decide) (by decide) (by decide)).1,
   (activity_stops_at_first_empty_page [("activity", "start", "0")] "0" 0
      ⟨[⟨-1, none⟩], some ⟨"u", "true"⟩⟩ [⟨[⟨5, none⟩], none⟩]
      (by decide) (by decide) (by decide)).2
     ⟨[⟨9, none⟩], some ⟨"u", "true"⟩⟩ ⟨[⟨-1, none⟩], some ⟨"v", "true"⟩⟩
     [⟨[⟨6, none⟩], none⟩] (by decide)⟩
